import Mathlib

/-!
Verification of the backup/restore orchestrator of the repository
postgres-backup-and-restore (src/db_operations.py) against its
natural-language specification.

The Python code is shallowly embedded: every operation becomes a pure Lean
function over explicit inputs.  Effects of the outside world (stdout of the
external processes, their exit codes, the bytes found on disk, exceptions
raised by library calls) are supplied as explicit arguments, so each Python
function corresponds to a Lean function from those inputs to its result.
Python string helpers (str.split, int(), str.strip, pathlib.Path.stem) are
modelled byte-for-byte on their documented semantics; the gzip library is
modelled at the container level (gzip member header plus DEFLATE stored
blocks plus trailer), which is a genuine gzip stream encoding.
-/

/-! ## Python string primitives -/

/-- Characters the Python str.strip and str.split treat as whitespace. -/
def isPySpace (c : Char) : Bool :=
  c.toNat = 32 ∨ c.toNat = 9 ∨ c.toNat = 10 ∨ c.toNat = 13 ∨ c.toNat = 11 ∨ c.toNat = 12

/-- Split a character list on a separator character, keeping empty pieces,
as Python str.split(sep) does.  The accumulator holds the current piece
reversed. -/
def splitCharAux (sep : Char) : List Char → List Char → List (List Char)
  | [], acc => [acc.reverse]
  | c :: cs, acc =>
    if c = sep then acc.reverse :: splitCharAux sep cs []
    else splitCharAux sep cs (c :: acc)

/-- Python str.split(sep): split on a one-character separator, keeping empty
pieces; the result is never the empty list. -/
def pySplit (s : String) (sep : Char) : List String :=
  (splitCharAux sep s.data []).map String.mk

/-- Python str.strip(): drop leading and trailing whitespace. -/
def pyStrip (s : String) : String :=
  String.mk (((s.data.dropWhile (fun c => isPySpace c)).reverse.dropWhile
    (fun c => isPySpace c)).reverse)

/-- Whitespace tokenisation, as Python str.split() with no argument: runs of
whitespace separate tokens and no empty token is produced. -/
def wsTokensAux : List Char → List Char → List (List Char)
  | [], acc => if acc.isEmpty then [] else [acc.reverse]
  | c :: cs, acc =>
    if isPySpace c then
      if acc.isEmpty then wsTokensAux cs []
      else acc.reverse :: wsTokensAux cs []
    else wsTokensAux cs (c :: acc)

/-- Python str.split() with no argument. -/
def pySplitWs (s : String) : List String :=
  (wsTokensAux s.data []).map String.mk

/-- Numeric value of a decimal digit character. -/
def digitVal (c : Char) : Nat := c.toNat - 48

/-- Decimal value of a digit string, most significant digit first. -/
def digitsToNat (cs : List Char) : Nat :=
  cs.foldl (fun a c => 10 * a + digitVal c) 0

/-- Parse a nonempty all-digit character list as a Nat, else none. -/
def parseNatDigits (cs : List Char) : Option Nat :=
  if cs.isEmpty then none
  else if cs.all Char.isDigit then some (digitsToNat cs) else none

/-- Python int(str): an optional sign followed by decimal digits.
(The model omits surrounding whitespace and underscore separators, which
never occur in the version tokens this program parses.) -/
def pyIntParse (s : String) : Option Int :=
  match s.data with
  | '-' :: rest => (parseNatDigits rest).map (fun n => -(n : Int))
  | '+' :: rest => (parseNatDigits rest).map (fun n => (n : Int))
  | cs => (parseNatDigits cs).map (fun n => (n : Int))

/-- pathlib.Path.stem: the final path component without its suffix.  The
suffix is the part after the last dot, provided that dot is neither the
first nor the last character of the component. -/
def pyStem (s : String) : String :=
  let base := (splitCharAux '/' s.data []).getLastD []
  let rev := base.reverse
  let ext := rev.takeWhile (fun c => c ≠ '.')
  if ext.length ≥ rev.length then String.mk base
  else if ext.length = 0 then String.mk base
  else if ext.length + 1 = rev.length then String.mk base
  else String.mk ((rev.drop (ext.length + 1)).reverse)

/-! ## Version gate (db_operations.py lines 67 to 111)

DatabaseOperations._get_pg_versions runs the two external version queries
and extracts one whitespace token from each stdout; any exception inside the
try block (in particular the IndexError when the stdout has too few tokens)
is caught and turned into the pair of empty strings.

DatabaseOperations._check_version_compatibility compares the leading
dot-field of each version string as Python int()s.  It has no exception
handler, so a ValueError raised by int() propagates to the caller; the
Except.error value records that escaping exception. -/

/-- DatabaseOperations._get_pg_versions, as a function of the stdout of the
psql version query and of the pg_dump --version call.  server token index 1,
pg_dump token index 2; a missing token is the caught IndexError. -/
def get_pg_versions (serverStdout dumpStdout : String) : String × String :=
  match (pySplitWs (pyStrip serverStdout)).get? 1 with
  | none => ("", "")
  | some sv =>
    match (pySplitWs (pyStrip dumpStdout)).get? 2 with
    | none => ("", "")
    | some dv => (sv, dv)

/-- int(version.split(sep)[0]) where sep is the dot: the major version.
none is the ValueError. -/
def parse_major (s : String) : Option Int :=
  pyIntParse ((pySplit s '.').headD "")

/-- DatabaseOperations._check_version_compatibility on the two version
strings obtained from _get_pg_versions.  An empty string is falsy in
Python, so either string empty yields False; a ValueError from int()
escapes (Except.error); otherwise the gate passes iff the dump major is
not below the server major. -/
def check_version_compatibility (sv dv : String) : Except String Bool :=
  if sv = "" then Except.ok false
  else if dv = "" then Except.ok false
  else
    match parse_major sv with
    | none => Except.error "ValueError"
    | some serverMajor =>
      match parse_major dv with
      | none => Except.error "ValueError"
      | some dumpMajor =>
        if dumpMajor < serverMajor then Except.ok false else Except.ok true

/-! ## gzip model

The repository compresses with gzip.open(... wb) and checks artifacts with
gzip.open(... rb).read(1).  The gzip library is external; it is modelled at
the container level: a stream is a 10-byte member header (magic 31 139,
method 8, no flags), a DEFLATE body restricted to stored (uncompressed)
blocks — a legitimate DEFLATE encoding — and the 8-byte trailer (CRC32,
modelled as an unchecked field, and the payload length modulo 2^32, which
is checked).  read(1) is modelled as full-stream decoding: it succeeds iff
the bytes form one well-formed stream. -/

def leBytes2 (n : Nat) : List Nat := [n % 256, n / 256 % 256]

def leBytes4 (n : Nat) : List Nat :=
  [n % 256, n / 256 % 256, n / 65536 % 256, n / 16777216 % 256]

def readLE2 : List Nat → Option (Nat × List Nat)
  | a :: b :: rest => some (a + 256 * b, rest)
  | _ => none

def readLE4 : List Nat → Option (Nat × List Nat)
  | a :: b :: c :: d :: rest => some (a + 256 * b + 65536 * c + 16777216 * d, rest)
  | _ => none

/-- Fixed gzip member header: magic, deflate method, no flags, zero mtime,
unknown extra flags and OS. -/
def gzipHeaderBytes : List Nat := [31, 139, 8, 0, 0, 0, 0, 0, 0, 255]

/-- One final stored DEFLATE block holding the whole payload (payload at
most 65535 bytes): BFINAL plus BTYPE 00, LEN, NLEN, raw bytes. -/
def storedBlockFinal (payload : List Nat) : List Nat :=
  1 :: (leBytes2 payload.length ++ leBytes2 (65535 - payload.length) ++ payload)

/-- A genuine gzip stream wrapping the payload (payload at most 65535
bytes; the CRC32 field is modelled as zero). -/
def gzipCompressStored (payload : List Nat) : List Nat :=
  gzipHeaderBytes ++ storedBlockFinal payload ++ leBytes4 0
    ++ leBytes4 (payload.length % 4294967296)

/-- Decode a sequence of stored DEFLATE blocks; returns the payload and the
remaining bytes.  The fuel argument bounds the number of blocks. -/
def decodeBlocks : Nat → List Nat → Option (List Nat × List Nat)
  | 0, _ => none
  | _ + 1, [] => none
  | fuel + 1, h :: rest =>
    if h / 2 % 4 ≠ 0 then none
    else
      match readLE2 rest with
      | none => none
      | some (len, r2) =>
        match readLE2 r2 with
        | none => none
        | some (nlen, r3) =>
          if nlen ≠ 65535 - len then none
          else if r3.length < len then none
          else if h % 2 = 1 then some (r3.take len, r3.drop len)
          else
            match decodeBlocks fuel (r3.drop len) with
            | none => none
            | some (more, rest2) => some (r3.take len ++ more, rest2)

/-- Decode one gzip stream: header, stored-block body, trailer.  none is
the BadGzipFile / EOFError exception of the library. -/
def gzipDecode (bs : List Nat) : Option (List Nat) :=
  match bs with
  | id1 :: id2 :: cm :: flg :: _ :: _ :: _ :: _ :: _ :: _ :: rest =>
    if id1 = 31 ∧ id2 = 139 ∧ cm = 8 ∧ flg = 0 then
      match decodeBlocks (rest.length + 1) rest with
      | none => none
      | some (payload, trailer) =>
        match readLE4 trailer with
        | none => none
        | some (_, t2) =>
          match readLE4 t2 with
          | none => none
          | some (isize, t3) =>
            if t3 = [] ∧ isize = payload.length % 4294967296 then some payload
            else none
    else none
  | _ => none

/-! ## File system model

Just enough of the file system for the backup pipeline: a flat map from
path to byte content, as an association list. -/

abbrev FSys := List (String × List Nat)

def fsLookup : FSys → String → Option (List Nat)
  | [], _ => none
  | (q, bs) :: rest, p => if q = p then some bs else fsLookup rest p

def fsErase : FSys → String → FSys
  | [], _ => []
  | (q, bs) :: rest, p => if q = p then fsErase rest p else (q, bs) :: fsErase rest p

def fsWrite (fs : FSys) (p : String) (bs : List Nat) : FSys :=
  (p, bs) :: fsErase fs p

def fsRename (fs : FSys) (src dst : String) : FSys :=
  match fsLookup fs src with
  | none => fs
  | some bs => fsWrite (fsErase fs src) dst bs

/-! ## Artifact verification (db_operations.py lines 118 to 135) -/

/-- DatabaseOperations._verify_backup_file: the file must exist, have
nonzero size, and decode as a gzip stream (the try block turns the
library's exception into False). -/
def verify_backup_file (fs : FSys) (p : String) : Bool :=
  match fsLookup fs p with
  | none => false
  | some bs =>
    if bs.length = 0 then false
    else
      match gzipDecode bs with
      | none => false
      | some _ => true

deriving instance DecidableEq for Except

/-! ## Backup pipeline (db_operations.py lines 137 to 203)

The stages of one backup invocation, in source order.  The environment
supplies what the outside world does at each stage: the version gate's
outcome (Except.error is the ValueError escaping from
_check_version_compatibility, which line 139 calls outside the try block),
pg_dump's exit code and the dump bytes it writes, whether the compression
block raises, and the bytes the gzip library actually leaves in the
temporary .gz file (nominally gzipCompressStored of the dump bytes). -/

inductive Stage
  | versionCheck
  | dumpRun
  | compressRun
  | verifyRun
deriving DecidableEq, Repr

structure BackupEnv where
  gateResult : Except String Bool
  dumpExit : Int
  dumpBytes : List Nat
  compressRaises : Bool
  compressedBytes : List Nat
  fs0 : FSys
  backupPath : String
deriving DecidableEq, Repr

structure BackupResult where
  outcome : Except String Bool
  fs : FSys
  trace : List Stage
deriving DecidableEq, Repr

/-- The file-system effect of the compression stage: the compressed bytes
are written to the temporary path backupPath.gz, the uncompressed
intermediate is deleted (unlink), and the temporary file is renamed onto
the canonical artifact path. -/
def backupCompressFS (env : BackupEnv) : FSys :=
  let fs1 := fsWrite env.fs0 env.backupPath env.dumpBytes
  let fs2 := fsWrite fs1 (env.backupPath ++ ".gz") env.compressedBytes
  let fs3 := fsErase fs2 env.backupPath
  fsRename fs3 (env.backupPath ++ ".gz") env.backupPath

/-- DatabaseOperations.backup: version gate, pg_dump, compress-and-replace,
verify; the trace records the stages reached. -/
def backup (env : BackupEnv) : BackupResult :=
  match env.gateResult with
  | Except.error e =>
    { outcome := Except.error e, fs := env.fs0, trace := [Stage.versionCheck] }
  | Except.ok false =>
    { outcome := Except.ok false, fs := env.fs0, trace := [Stage.versionCheck] }
  | Except.ok true =>
    if env.dumpExit ≠ 0 then
      { outcome := Except.ok false, fs := env.fs0,
        trace := [Stage.versionCheck, Stage.dumpRun] }
    else
      let fs1 := fsWrite env.fs0 env.backupPath env.dumpBytes
      if env.compressRaises then
        { outcome := Except.ok false, fs := fs1,
          trace := [Stage.versionCheck, Stage.dumpRun, Stage.compressRun] }
      else
        let fs4 := backupCompressFS env
        if verify_backup_file fs4 env.backupPath then
          { outcome := Except.ok true, fs := fs4,
            trace := [Stage.versionCheck, Stage.dumpRun, Stage.compressRun,
              Stage.verifyRun] }
        else
          { outcome := Except.ok false, fs := fs4,
            trace := [Stage.versionCheck, Stage.dumpRun, Stage.compressRun,
              Stage.verifyRun] }

/-! ## Restore pipeline (db_operations.py lines 205 to 260) -/

structure RestoreEnv where
  gateResult : Except String Bool
  artifact : Option (List Nat)
  psqlExit : Int
  host : String
  port : String
  user : String
  db : String
  schemas : List String
  tables : List String
deriving DecidableEq, Repr

/-- The psql command line the restore builds: connection parameters, the
stop-on-error flag, then the schema and table selection flags. -/
def restore_cmd (env : RestoreEnv) : List String :=
  ["psql", "-h", env.host, "-p", env.port, "-U", env.user, "-d", env.db,
    "-v", "ON_ERROR_STOP=1"]
    ++ (env.schemas.map (fun s => ["-n", s])).flatten
    ++ (env.tables.map (fun t => ["-t", t])).flatten

structure RestoreResult where
  outcome : Except String Bool
  executorCmd : Option (List String)
  executorInput : Option (List Nat)
deriving DecidableEq, Repr

/-- DatabaseOperations.restore: version gate, artifact existence check,
decompress fully, feed as standard input to psql.  executorCmd and
executorInput are none when the executor is never invoked; a decompression
exception is caught by the surrounding except block and becomes False. -/
def restore (env : RestoreEnv) : RestoreResult :=
  match env.gateResult with
  | Except.error e =>
    { outcome := Except.error e, executorCmd := none, executorInput := none }
  | Except.ok false =>
    { outcome := Except.ok false, executorCmd := none, executorInput := none }
  | Except.ok true =>
    match env.artifact with
    | none =>
      { outcome := Except.ok false, executorCmd := none, executorInput := none }
    | some bs =>
      match gzipDecode bs with
      | none =>
        { outcome := Except.ok false, executorCmd := none, executorInput := none }
      | some sql =>
        { outcome := Except.ok (env.psqlExit = 0),
          executorCmd := some (restore_cmd env),
          executorInput := some sql }

/-! ## Table enumeration (db_operations.py lines 262 to 299) -/

/-- DatabaseOperations.get_all_tables as a function of whether the psql call
raised, its exit code, and its stdout.  A raised exception or a nonzero exit
yields the empty list; otherwise the stdout lines are stripped and the empty
ones dropped. -/
def get_all_tables (raised : Bool) (exitCode : Int) (out : String) : List String :=
  if raised then []
  else if exitCode ≠ 0 then []
  else ((pySplit out '\n').map pyStrip).filter (fun l => l ≠ "")

/-! ## Per-table CSV export (db_operations.py lines 301 to 360)

Each loop iteration unpacks table.split into exactly two names — a
ValueError when the split does not have exactly two parts is caught by the
per-item except block — and then runs the psql copy command, whose exit
code the environment supplies. -/

structure ExportItemResult where
  ok : Bool
  copyInvoked : Bool
deriving DecidableEq, Repr

/-- One iteration of the export loop over one table spec. -/
def export_item (table : String) (copyExit : Int) : ExportItemResult :=
  match pySplit table '.' with
  | [_, _] =>
    if copyExit = 0 then { ok := true, copyInvoked := true }
    else { ok := false, copyInvoked := true }
  | _ => { ok := false, copyInvoked := false }

/-- The export loop: the aggregate success flag and the per-item results,
one per input item. -/
def export_to_csv_items : List (String × Int) → Bool × List ExportItemResult
  | [] => (true, [])
  | (t, e) :: rest =>
    let r := export_item t e
    let (agg, rs) := export_to_csv_items rest
    (r.ok && agg, r :: rs)

/-! ## Per-file CSV import (db_operations.py lines 362 to 442) -/

structure ImportItemEnv where
  fileExists : Bool
  truncateExit : Int
  importExit : Int
deriving DecidableEq, Repr

structure ImportItemResult where
  ok : Bool
  truncateInvoked : Bool
  loadInvoked : Bool
deriving DecidableEq, Repr

/-- One iteration of the import loop over one CSV path: existence check,
schema and table from the filename stem (a ValueError from the unpack is
caught per item), optional truncate whose failure skips the load, then the
copy-from load itself. -/
def import_item (csvFile : String) (truncate : Bool) (e : ImportItemEnv) :
    ImportItemResult :=
  if ¬ e.fileExists then
    { ok := false, truncateInvoked := false, loadInvoked := false }
  else
    match pySplit (pyStem csvFile) '.' with
    | [_, _] =>
      if truncate then
        if e.truncateExit ≠ 0 then
          { ok := false, truncateInvoked := true, loadInvoked := false }
        else if e.importExit = 0 then
          { ok := true, truncateInvoked := true, loadInvoked := true }
        else
          { ok := false, truncateInvoked := true, loadInvoked := true }
      else if e.importExit = 0 then
        { ok := true, truncateInvoked := false, loadInvoked := true }
      else
        { ok := false, truncateInvoked := false, loadInvoked := true }
    | _ => { ok := false, truncateInvoked := false, loadInvoked := false }

/-- The import loop: aggregate success flag and per-item results. -/
def import_from_csv_items (truncate : Bool) :
    List (String × ImportItemEnv) → Bool × List ImportItemResult
  | [] => (true, [])
  | (f, e) :: rest =>
    let r := import_item f truncate e
    let (agg, rs) := import_from_csv_items truncate rest
    (r.ok && agg, r :: rs)

/-- Python falsiness of the optional csv_files argument: None or the empty
list. -/
def falsyStrList : Option (List String) → Bool
  | none => true
  | some l => l.isEmpty

/-- Python falsiness of the optional input_dir argument: None or the empty
string. -/
def falsyStr : Option String → Bool
  | none => true
  | some s => s = ""

/-- The batch-selection front end of DatabaseOperations.import_from_csv
(lines 373 to 386): which list of CSV paths the loop will run over, and
whether the input directory was scanned (glob) to obtain it.  Except.error
is the early False return. -/
def import_from_csv_select (csvFiles : Option (List String))
    (inputDir : Option String) (dirExists : Bool) (globbed : List String) :
    Except Unit (List String) × Bool :=
  if falsyStrList csvFiles ∧ falsyStr inputDir then (Except.error (), false)
  else if falsyStrList csvFiles then
    if ¬ dirExists then (Except.error (), false)
    else if globbed.isEmpty then (Except.error (), true)
    else (Except.ok globbed, true)
  else
    match csvFiles with
    | some l => (Except.ok l, false)
    | none => (Except.error (), false)

/-! ## Backup filename (db_operations.py lines 113 to 116)

datetime.now() supplies the current local time; strftime renders it with
zero-padded fixed-width decimal fields. -/

structure PyDateTime where
  year : Nat
  month : Nat
  day : Nat
  hour : Nat
  minute : Nat
  second : Nat
deriving DecidableEq, Repr

/-- The decimal digits of n, least significant first, computed with fuel so
that everything reduces definitionaly. -/
def natDigitsAux : Nat → Nat → List Nat
  | 0, _ => []
  | _ + 1, 0 => []
  | fuel + 1, n + 1 => (n + 1) % 10 :: natDigitsAux fuel ((n + 1) / 10)

def natDigits (n : Nat) : List Nat := natDigitsAux n n

/-- Zero-pad the decimal digits of n to width w, most significant first:
the strftime fixed-width field. -/
def padDigits (w n : Nat) : List Nat :=
  List.replicate (w - (natDigits n).length) 0 ++ (natDigits n).reverse

def digitChar (d : Nat) : Char := Char.ofNat (48 + d)

def padChars (w n : Nat) : List Char := (padDigits w n).map digitChar

/-- strftime of the timestamp pattern the code uses: four-digit year, two
digits each for month, day, hour, minute, second, with one underscore
between date and time. -/
def strftime_timestamp (t : PyDateTime) : String :=
  String.mk (padChars 4 t.year ++ padChars 2 t.month ++ padChars 2 t.day
    ++ ('_' :: (padChars 2 t.hour ++ padChars 2 t.minute ++ padChars 2 t.second)))

/-- DatabaseOperations._get_backup_filename at the datetime now() returned. -/
def get_backup_filename (pre : String) (t : PyDateTime) : String :=
  pre ++ "_" ++ strftime_timestamp t ++ ".sql.gz"

/-- The field ranges a datetime.now() value satisfies (loose bounds: what
the fixed-width rendering needs). -/
def ValidDateTime (t : PyDateTime) : Prop :=
  t.year < 10000 ∧ t.month < 100 ∧ t.day < 100 ∧ t.hour < 100 ∧
    t.minute < 100 ∧ t.second < 100

instance (t : PyDateTime) : Decidable (ValidDateTime t) := by
  unfold ValidDateTime; infer_instance

/-! ## Helper lemmas: file-system map -/

theorem fsLookup_write_self (fs : FSys) (p : String) (bs : List Nat) :
    fsLookup (fsWrite fs p bs) p = some bs := by
  simp [fsWrite, fsLookup]

theorem fsLookup_write_ne (fs : FSys) (p q : String) (bs : List Nat) (h : p ≠ q) :
    fsLookup (fsWrite fs p bs) q = fsLookup (fsErase fs p) q := by
  simp [fsWrite, fsLookup, h]

theorem fsLookup_erase_self (fs : FSys) (p : String) :
    fsLookup (fsErase fs p) p = none := by
  induction fs with
  | nil => rfl
  | cons hd tl ih =>
    obtain ⟨q, bs⟩ := hd
    by_cases h : q = p
    · simpa [fsErase, h] using ih
    · simpa [fsErase, fsLookup, h] using ih

theorem fsLookup_erase_ne (fs : FSys) (p q : String) (h : q ≠ p) :
    fsLookup (fsErase fs q) p = fsLookup fs p := by
  induction fs with
  | nil => rfl
  | cons hd tl ih =>
    obtain ⟨r, bs⟩ := hd
    by_cases hr : r = q
    · subst hr; simpa [fsErase, fsLookup, h] using ih
    · by_cases hp : r = p <;> simp [fsErase, fsLookup, hr, hp, Ne.symm h, ih]

theorem append_gz_ne (p : String) : p ++ ".gz" ≠ p := by
  intro h
  have hlen := congrArg String.length h
  have h3 : (".gz" : String).length = 3 := rfl
  rw [String.length_append, h3] at hlen
  omega

/-- The compression stage leaves the compressed bytes at the canonical
artifact path and no file at the temporary path. -/
theorem backupCompressFS_lookup (env : BackupEnv) :
    fsLookup (backupCompressFS env) env.backupPath = some env.compressedBytes ∧
    fsLookup (backupCompressFS env) (env.backupPath ++ ".gz") = none := by
  unfold backupCompressFS
  set p := env.backupPath
  set gz := p ++ ".gz" with hgz
  have hne : gz ≠ p := append_gz_ne p
  have h3 : fsLookup (fsErase (fsWrite (fsWrite env.fs0 p env.dumpBytes) gz
      env.compressedBytes) p) gz = some env.compressedBytes := by
    rw [fsLookup_erase_ne _ _ _ (Ne.symm hne), fsLookup_write_self]
  rw [fsRename, h3]
  constructor
  · exact fsLookup_write_self _ _ _
  · rw [fsLookup_write_ne _ _ _ _ (Ne.symm hne), fsLookup_erase_ne _ _ _ (Ne.symm hne),
      fsLookup_erase_self]

/-! ## Helper lemmas: export and import loops -/

theorem export_items_results (items : List (String × Int)) :
    (export_to_csv_items items).2 = items.map (fun p => export_item p.1 p.2) := by
  induction items with
  | nil => rfl
  | cons hd tl ih =>
    obtain ⟨t, e⟩ := hd
    simp [export_to_csv_items, ih]

theorem export_items_agg (items : List (String × Int)) :
    (export_to_csv_items items).1 = true ↔
      ∀ r ∈ (export_to_csv_items items).2, r.ok = true := by
  induction items with
  | nil => simp [export_to_csv_items]
  | cons hd tl ih =>
    obtain ⟨t, e⟩ := hd
    simp [export_to_csv_items, Bool.and_eq_true, ih]

theorem import_items_results (tr : Bool) (items : List (String × ImportItemEnv)) :
    (import_from_csv_items tr items).2 =
      items.map (fun p => import_item p.1 tr p.2) := by
  induction items with
  | nil => rfl
  | cons hd tl ih =>
    obtain ⟨f, e⟩ := hd
    simp [import_from_csv_items, ih]

theorem import_items_agg (tr : Bool) (items : List (String × ImportItemEnv)) :
    (import_from_csv_items tr items).1 = true ↔
      ∀ r ∈ (import_from_csv_items tr items).2, r.ok = true := by
  induction items with
  | nil => simp [import_from_csv_items]
  | cons hd tl ih =>
    obtain ⟨f, e⟩ := hd
    simp [import_from_csv_items, Bool.and_eq_true, ih]

theorem export_item_bad_split (t : String) (e : Int)
    (h : (pySplit t '.').length ≠ 2) :
    export_item t e = { ok := false, copyInvoked := false } := by
  unfold export_item
  rcases hs : pySplit t '.' with _ | ⟨a, _ | ⟨b, _ | ⟨c, rest⟩⟩⟩ <;>
    first
      | rfl
      | (exfalso; apply h; rw [hs]; rfl)

theorem export_item_good_split (t : String) (e : Int)
    (h : (pySplit t '.').length = 2) :
    export_item t e = { ok := decide (e = 0), copyInvoked := true } := by
  obtain ⟨a, b, hs⟩ := List.length_eq_two.mp h
  unfold export_item
  rw [hs]
  by_cases he : e = 0 <;> simp [he]

theorem import_item_bad_split (f : String) (tr : Bool) (e : ImportItemEnv)
    (hex : e.fileExists = true)
    (h : (pySplit (pyStem f) '.').length ≠ 2) :
    import_item f tr e = { ok := false, truncateInvoked := false, loadInvoked := false } := by
  unfold import_item
  rw [hex]
  rcases hs : pySplit (pyStem f) '.' with _ | ⟨a, _ | ⟨b, _ | ⟨c, rest⟩⟩⟩ <;>
    first
      | (exfalso; apply h; rw [hs]; rfl)
      | simp

/-! ## Helper lemmas: gzip -/

theorem readLE2_le2 (n : Nat) (h : n < 65536) (rest : List Nat) :
    readLE2 (leBytes2 n ++ rest) = some (n, rest) := by
  simp only [leBytes2, List.cons_append, List.nil_append, readLE2,
    Option.some.injEq, Prod.mk.injEq]
  exact ⟨by omega, trivial⟩

theorem readLE4_le4 (n : Nat) (h : n < 4294967296) (rest : List Nat) :
    readLE4 (leBytes4 n ++ rest) = some (n, rest) := by
  simp only [leBytes4, List.cons_append, List.nil_append, readLE4,
    Option.some.injEq, Prod.mk.injEq]
  exact ⟨by omega, trivial⟩

theorem readLE4_whole (n : Nat) (h : n < 4294967296) :
    readLE4 (leBytes4 n) = some (n, []) := by
  simp only [leBytes4, readLE4, Option.some.injEq, Prod.mk.injEq]
  exact ⟨by omega, trivial⟩

theorem decodeBlocks_single (fuel : Nat) (payload rest : List Nat)
    (h : payload.length ≤ 65535) :
    decodeBlocks (fuel + 1) (storedBlockFinal payload ++ rest) =
      some (payload, rest) := by
  rw [storedBlockFinal]
  simp only [List.cons_append, List.append_assoc]
  rw [decodeBlocks]
  have e1 := readLE2_le2 payload.length (by omega)
  have e2 := readLE2_le2 (65535 - payload.length) (by omega)
  have hlen : ¬ (payload ++ rest).length < payload.length := by
    simp [List.length_append]
  simp [e1, e2, hlen, List.take_left, List.drop_left]

theorem gzipDecode_compress (payload : List Nat) (h : payload.length ≤ 65535) :
    gzipDecode (gzipCompressStored payload) = some payload := by
  rw [gzipCompressStored, gzipHeaderBytes]
  simp only [List.cons_append, List.nil_append, List.append_assoc]
  rw [gzipDecode]
  rw [if_pos (by norm_num)]
  rw [decodeBlocks_single _ _ _ h]
  have e1 := readLE4_le4 0 (by norm_num)
  have e2 := readLE4_whole (payload.length % 4294967296) (by omega)
  simp [e1, e2]

theorem gzipCompressStored_length_pos (payload : List Nat) :
    (gzipCompressStored payload).length ≠ 0 := by
  simp [gzipCompressStored, gzipHeaderBytes]

theorem gzipDecode_header (bs l : List Nat) (h : gzipDecode bs = some l) :
    bs.take 3 = [31, 139, 8] := by
  unfold gzipDecode at h
  split at h
  · rename_i id1 id2 cm flg x1 x2 x3 x4 x5 x6 rest
    by_cases hc : id1 = 31 ∧ id2 = 139 ∧ cm = 8 ∧ flg = 0
    · obtain ⟨h1, h2, h3, _⟩ := hc
      subst h1; subst h2; subst h3
      rfl
    · rw [if_neg hc] at h; cases h
  · cases h

/-! ## Helper lemmas: fixed-width decimal rendering -/

/-- Value of a most-significant-first digit list. -/
def msbVal (l : List Nat) : Nat := l.foldl (fun a d => 10 * a + d) 0

theorem foldl_digit_acc (l : List Nat) (a : Nat) :
    l.foldl (fun x d => 10 * x + d) a = a * 10 ^ l.length + msbVal l := by
  induction l generalizing a with
  | nil => simp [msbVal]
  | cons d ds ih =>
    have hm : msbVal (d :: ds) = d * 10 ^ ds.length + msbVal ds := by
      rw [msbVal, List.foldl_cons]
      have hd : (10 * 0 + d) = d := by omega
      rw [hd, ih d]
    rw [List.foldl_cons, ih (10 * a + d), hm, List.length_cons]
    ring

theorem msbVal_append (A B : List Nat) :
    msbVal (A ++ B) = msbVal A * 10 ^ B.length + msbVal B := by
  rw [msbVal, List.foldl_append, foldl_digit_acc]
  rfl

theorem msbVal_replicate_zero (k : Nat) :
    msbVal (List.replicate k 0) = 0 := by
  induction k with
  | zero => rfl
  | succ n ih =>
    rw [List.replicate_succ]
    show List.foldl (fun a d => 10 * a + d) (10 * 0 + 0) (List.replicate n 0) = 0
    simpa [msbVal] using ih

theorem natDigitsAux_val (fuel : Nat) :
    ∀ n, n ≤ fuel → msbVal ((natDigitsAux fuel n).reverse) = n := by
  induction fuel with
  | zero =>
    intro n hn
    interval_cases n
    rfl
  | succ fuel ih =>
    intro n hn
    match n with
    | 0 => rfl
    | m + 1 =>
      rw [natDigitsAux, List.reverse_cons, msbVal_append]
      have hq : (m + 1) / 10 ≤ fuel := by omega
      rw [ih _ hq]
      have h1 : msbVal [(m + 1) % 10] = (m + 1) % 10 := by
        rw [msbVal, List.foldl_cons, List.foldl_nil]
        omega
      rw [h1, List.length_singleton, pow_one]
      omega

theorem msbVal_natDigits (n : Nat) : msbVal ((natDigits n).reverse) = n :=
  natDigitsAux_val n n (le_refl n)

theorem msbVal_padDigits (w n : Nat) : msbVal (padDigits w n) = n := by
  rw [padDigits, msbVal_append, msbVal_replicate_zero, msbVal_natDigits]
  simp

theorem natDigitsAux_lt (fuel : Nat) :
    ∀ n d, d ∈ natDigitsAux fuel n → d < 10 := by
  induction fuel with
  | zero => intro n d hd; cases hd
  | succ fuel ih =>
    intro n d hd
    match n with
    | 0 => cases hd
    | m + 1 =>
      rw [natDigitsAux] at hd
      rcases List.mem_cons.mp hd with h | h
      · subst h; exact Nat.mod_lt _ (by norm_num)
      · exact ih _ _ h

theorem padDigits_lt (w n d : Nat) (hd : d ∈ padDigits w n) : d < 10 := by
  rw [padDigits] at hd
  rcases List.mem_append.mp hd with h | h
  · rw [List.eq_of_mem_replicate h]; norm_num
  · exact natDigitsAux_lt _ _ _ (List.mem_reverse.mp h)

theorem natDigitsAux_length (w : Nat) :
    ∀ fuel n, n ≤ fuel → n < 10 ^ w → (natDigitsAux fuel n).length ≤ w := by
  induction w with
  | zero =>
    intro fuel n hf hw
    have : n = 0 := by simpa using hw
    subst this
    match fuel with
    | 0 => simp [natDigitsAux]
    | f + 1 => simp [natDigitsAux]
  | succ w ih =>
    intro fuel n hf hw
    match fuel, n with
    | 0, _ => simp [natDigitsAux]
    | f + 1, 0 => simp [natDigitsAux]
    | f + 1, m + 1 =>
      rw [natDigitsAux, List.length_cons]
      have hq1 : (m + 1) / 10 ≤ f := by omega
      have hq2 : (m + 1) / 10 < 10 ^ w := by
        rw [Nat.div_lt_iff_lt_mul (by norm_num)]
        calc m + 1 < 10 ^ (w + 1) := hw
        _ = 10 ^ w * 10 := by ring
      exact Nat.succ_le_succ (ih f _ hq1 hq2)

theorem natDigits_length (w n : Nat) (h : n < 10 ^ w) :
    (natDigits n).length ≤ w :=
  natDigitsAux_length w n n (le_refl n) h

theorem padDigits_length (w n : Nat) (h : n < 10 ^ w) :
    (padDigits w n).length = w := by
  have := natDigits_length w n h
  rw [padDigits, List.length_append, List.length_replicate, List.length_reverse]
  omega

theorem digitChar_toNat (d : Nat) (h : d < 10) : (digitChar d).toNat = 48 + d := by
  interval_cases d <;> rfl

theorem digitChar_isDigit (d : Nat) (h : d < 10) : (digitChar d).isDigit = true := by
  interval_cases d <;> decide

theorem foldl_map_digitChar (l : List Nat) :
    ∀ a, (∀ d ∈ l, d < 10) →
      (l.map digitChar).foldl (fun x c => 10 * x + (c.toNat - 48)) a =
        l.foldl (fun x d => 10 * x + d) a := by
  induction l with
  | nil => intro a h; rfl
  | cons d ds ih =>
    intro a h
    simp only [List.map_cons, List.foldl_cons]
    rw [digitChar_toNat d (h d (List.mem_cons_self d ds))]
    have : 48 + d - 48 = d := by omega
    rw [this]
    exact ih _ (fun x hx => h x (List.mem_cons_of_mem d hx))

/-- The numeric value read back from a digit-character list. -/
def charsMsbVal (cs : List Char) : Nat :=
  cs.foldl (fun a c => 10 * a + (c.toNat - 48)) 0

theorem charsMsbVal_padChars (w n : Nat) :
    charsMsbVal (padChars w n) = n := by
  rw [charsMsbVal, padChars, foldl_map_digitChar _ _ (padDigits_lt w n)]
  exact msbVal_padDigits w n

theorem padChars_inj (w a b : Nat) (h : padChars w a = padChars w b) : a = b := by
  have := congrArg charsMsbVal h
  rwa [charsMsbVal_padChars, charsMsbVal_padChars] at this

theorem padChars_length (w n : Nat) (h : n < 10 ^ w) :
    (padChars w n).length = w := by
  rw [padChars, List.length_map]
  exact padDigits_length w n h

theorem padChars_isDigit (w n : Nat) (c : Char) (hc : c ∈ padChars w n) :
    c.isDigit = true := by
  rw [padChars] at hc
  obtain ⟨d, hd, rfl⟩ := List.mem_map.mp hc
  exact digitChar_isDigit d (padDigits_lt w n d hd)

theorem strftime_data (t : PyDateTime) :
    (strftime_timestamp t).data =
      padChars 4 t.year ++ padChars 2 t.month ++ padChars 2 t.day
        ++ ('_' :: (padChars 2 t.hour ++ padChars 2 t.minute
          ++ padChars 2 t.second)) := rfl

theorem padChars4_length (n : Nat) (hn : n < 10000) :
    (padChars 4 n).length = 4 := by
  apply padChars_length
  norm_num
  omega

theorem padChars2_length (n : Nat) (hn : n < 100) :
    (padChars 2 n).length = 2 := by
  apply padChars_length
  norm_num
  omega

theorem strftime_timestamp_inj (t1 t2 : PyDateTime)
    (hv1 : ValidDateTime t1) (hv2 : ValidDateTime t2)
    (h : (strftime_timestamp t1).data = (strftime_timestamp t2).data) :
    t1 = t2 := by
  obtain ⟨y1, mo1, d1, hr1, mi1, s1⟩ := t1
  obtain ⟨y2, mo2, d2, hr2, mi2, s2⟩ := t2
  obtain ⟨hy1, hmo1, hd1, hh1, hmi1, hs1⟩ := hv1
  obtain ⟨hy2, hmo2, hd2, hh2, hmi2, hs2⟩ := hv2
  rw [strftime_data, strftime_data] at h
  dsimp only at h hy1 hmo1 hd1 hh1 hmi1 hs1 hy2 hmo2 hd2 hh2 hmi2 hs2
  obtain ⟨hABC, hW⟩ := List.append_inj h (by
    simp [List.length_append, padChars4_length _ hy1, padChars4_length _ hy2,
      padChars2_length _ hmo1, padChars2_length _ hmo2,
      padChars2_length _ hd1, padChars2_length _ hd2])
  obtain ⟨hAB, hC⟩ := List.append_inj hABC (by
    simp [List.length_append, padChars4_length _ hy1, padChars4_length _ hy2,
      padChars2_length _ hmo1, padChars2_length _ hmo2])
  obtain ⟨hA, hB⟩ := List.append_inj hAB (by
    rw [padChars4_length _ hy1, padChars4_length _ hy2])
  injection hW with h0 hDEF
  obtain ⟨hDE, hF⟩ := List.append_inj hDEF (by
    simp [List.length_append, padChars2_length _ hh1, padChars2_length _ hh2,
      padChars2_length _ hmi1, padChars2_length _ hmi2])
  obtain ⟨hD, hE⟩ := List.append_inj hDE (by
    rw [padChars2_length _ hh1, padChars2_length _ hh2])
  simp only [PyDateTime.mk.injEq]
  exact ⟨padChars_inj _ _ _ hA, padChars_inj _ _ _ hB, padChars_inj _ _ _ hC,
    padChars_inj _ _ _ hD, padChars_inj _ _ _ hE, padChars_inj _ _ _ hF⟩

theorem strftime_data_length (t : PyDateTime) (hv : ValidDateTime t) :
    (strftime_timestamp t).data.length = 15 := by
  obtain ⟨hy, hmo, hd, hh, hmi, hs⟩ := hv
  rw [strftime_data]
  simp [List.length_append, padChars4_length _ hy, padChars2_length _ hmo,
    padChars2_length _ hd, padChars2_length _ hh, padChars2_length _ hmi,
    padChars2_length _ hs]

/-! ## Claim theorems -/

/-- C1: for every backup or restore invocation, the version gate lets the
operation proceed iff the dump tool's major version T is at least the
server's major version S: T below S is blocked, T equal to S is allowed,
T above S is allowed. -/
theorem C1_version_gate (sv dv : String) (S T : Int)
    (hsv : sv ≠ "") (hdv : dv ≠ "")
    (hS : parse_major sv = some S) (hT : parse_major dv = some T) :
    check_version_compatibility sv dv = Except.ok true ↔ S ≤ T := by
  rw [check_version_compatibility, if_neg hsv, if_neg hdv, hS, hT]
  dsimp only
  by_cases h : T < S
  · rw [if_pos h]
    constructor
    · intro q; cases q
    · intro q; omega
  · rw [if_neg h]
    constructor
    · intro _; omega
    · intro _; rfl

/-- C1 witness: the gate at server major 16 with tool majors 16, 17
(allowed) and at server major 17 with tool major 16 (blocked). -/
theorem C1_version_gate_witness :
    check_version_compatibility "16.4" "16.9" = Except.ok true ∧
    check_version_compatibility "16.4" "17.2" = Except.ok true ∧
    check_version_compatibility "17.2" "16.4" ≠ Except.ok true := by
  refine ⟨?_, ?_, ?_⟩
  · exact (C1_version_gate "16.4" "16.9" 16 16 (by decide) (by decide)
      (by decide) (by decide)).mpr (by decide)
  · exact (C1_version_gate "16.4" "17.2" 16 17 (by decide) (by decide)
      (by decide) (by decide)).mpr (by decide)
  · intro h
    have := (C1_version_gate "17.2" "16.4" 17 16 (by decide) (by decide)
      (by decide) (by decide)).mp h
    omega

/-- C2 counterexample: a non-empty but unparseable server version string
(the token banana, as extracted by _get_pg_versions from a degenerate
stdout) makes _check_version_compatibility raise a ValueError that escapes
(Except.error), so the gate does not return the failure result False, and
the backup invocation that calls it ends in the escaping exception, not in
a reported failure. -/
theorem C2_counterexample_unparseable :
    get_pg_versions "PostgreSQL banana on x86" "pg_dump (PostgreSQL) 17.2"
      = ("banana", "17.2") ∧
    check_version_compatibility "banana" "17.2" = Except.error "ValueError" ∧
    check_version_compatibility "banana" "17.2" ≠ Except.ok false ∧
    (backup { gateResult := check_version_compatibility "banana" "17.2",
                dumpExit := 0, dumpBytes := [], compressRaises := false,
                compressedBytes := [], fs0 := [], backupPath := "b" }).outcome
      ≠ Except.ok false := by
  refine ⟨by decide, by decide, by decide, by decide⟩

/-- C2 as amended: a missing (empty) version string makes the gate return
the failure result False; a non-empty version string whose leading
dot-field is not an integer raises a ValueError that escapes the gate and
aborts the whole invocation as an unhandled exception rather than a
returned failure; in no case is a missing or unparseable version string
treated as compatible. -/
theorem C2_gate_fail_closed :
    (∀ dv, check_version_compatibility "" dv = Except.ok false) ∧
    (∀ sv, check_version_compatibility sv "" = Except.ok false) ∧
    (∀ sv dv, sv ≠ "" → dv ≠ "" → parse_major sv = none →
      check_version_compatibility sv dv = Except.error "ValueError") ∧
    (∀ sv dv S, sv ≠ "" → dv ≠ "" → parse_major sv = some S →
      parse_major dv = none →
      check_version_compatibility sv dv = Except.error "ValueError") ∧
    (∀ sv dv, parse_major sv = none ∨ parse_major dv = none →
      check_version_compatibility sv dv ≠ Except.ok true) ∧
    (∀ env e, env.gateResult = Except.error e →
      backup env = { outcome := Except.error e, fs := env.fs0,
                     trace := [Stage.versionCheck] }) ∧
    (∀ env e, env.gateResult = Except.error e →
      restore env = { outcome := Except.error e, executorCmd := none,
                      executorInput := none }) := by
  refine ⟨?_, ?_, ?_, ?_, ?_, ?_, ?_⟩
  · intro dv
    rw [check_version_compatibility, if_pos rfl]
  · intro sv
    by_cases h : sv = ""
    · rw [check_version_compatibility, if_pos h]
    · rw [check_version_compatibility, if_neg h, if_pos rfl]
  · intro sv dv h1 h2 h3
    rw [check_version_compatibility, if_neg h1, if_neg h2, h3]
  · intro sv dv S h1 h2 h3 h4
    rw [check_version_compatibility, if_neg h1, if_neg h2, h3, h4]
  · intro sv dv h
    by_cases h1 : sv = ""
    · rw [check_version_compatibility, if_pos h1]; intro q; cases q
    · by_cases h2 : dv = ""
      · rw [check_version_compatibility, if_neg h1, if_pos h2]; intro q; cases q
      · rcases h with h | h
        · rw [check_version_compatibility, if_neg h1, if_neg h2, h]
          intro q; cases q
        · cases hS : parse_major sv with
          | none =>
            rw [check_version_compatibility, if_neg h1, if_neg h2, hS]
            intro q; cases q
          | some S =>
            rw [check_version_compatibility, if_neg h1, if_neg h2, hS, h]
            intro q; cases q
  · intro env e h
    rw [backup, h]
  · intro env e h
    rw [restore, h]

/-- C3: the backup reports success iff the version gate passes, pg_dump
exits zero, the compression stage completes (temporary .gz written,
uncompressed intermediate deleted, compressed file renamed onto the
canonical path) and artifact verification passes; each stage failure
terminates the invocation with the failure result, the stages run in that
order, and no stage appears twice in a trace. -/
theorem C3_backup_pipeline : ∀ env : BackupEnv,
    ((backup env).outcome = Except.ok true ↔
      (env.gateResult = Except.ok true ∧ env.dumpExit = 0 ∧
        env.compressRaises = false ∧
        verify_backup_file (backupCompressFS env) env.backupPath = true)) ∧
    (env.gateResult = Except.ok false →
      backup env = { outcome := Except.ok false, fs := env.fs0,
                     trace := [Stage.versionCheck] }) ∧
    (env.gateResult = Except.ok true → env.dumpExit ≠ 0 →
      backup env = { outcome := Except.ok false, fs := env.fs0,
                     trace := [Stage.versionCheck, Stage.dumpRun] }) ∧
    (env.gateResult = Except.ok true → env.dumpExit = 0 →
      env.compressRaises = true →
      backup env = { outcome := Except.ok false,
                     fs := fsWrite env.fs0 env.backupPath env.dumpBytes,
                     trace := [Stage.versionCheck, Stage.dumpRun,
                       Stage.compressRun] }) ∧
    (env.gateResult = Except.ok true → env.dumpExit = 0 →
      env.compressRaises = false →
      (backup env).trace = [Stage.versionCheck, Stage.dumpRun,
        Stage.compressRun, Stage.verifyRun] ∧
      (backup env).fs = backupCompressFS env ∧
      fsLookup (backup env).fs env.backupPath = some env.compressedBytes ∧
      fsLookup (backup env).fs (env.backupPath ++ ".gz") = none ∧
      (backup env).outcome = Except.ok
        (verify_backup_file (backupCompressFS env) env.backupPath)) ∧
    ((backup env).trace.Nodup) := by
  intro env
  cases hg : env.gateResult with
  | error e => refine ⟨?_, ?_, ?_, ?_, ?_, ?_⟩ <;> simp [backup, hg]
  | ok b =>
    cases b with
    | false => refine ⟨?_, ?_, ?_, ?_, ?_, ?_⟩ <;> simp [backup, hg]
    | true =>
      by_cases hd : env.dumpExit = 0
      · by_cases hc : env.compressRaises
        · refine ⟨?_, ?_, ?_, ?_, ?_, ?_⟩ <;> simp [backup, hg, hd, hc]
        · have hcf : env.compressRaises = false := by simpa using hc
          refine ⟨?_, ?_, ?_, ?_, ?_, ?_⟩ <;>
            cases hv : verify_backup_file (backupCompressFS env) env.backupPath <;>
            simp [backup, hg, hd, hcf, hv, (backupCompressFS_lookup env).1,
              (backupCompressFS_lookup env).2]
      · refine ⟨?_, ?_, ?_, ?_, ?_, ?_⟩ <;> simp [backup, hg, hd]

/-- C4: artifact verification returns failure when the file does not
exist, when it is zero bytes, and when it does not start with the gzip
header; it returns success for a genuine gzip stream even with an empty
decompressed payload; and a backup whose produced artifact fails
verification is reported as a failed backup although the artifact file
exists on disk. -/
theorem C4_artifact_verification :
    (∀ fs p, fsLookup fs p = none → verify_backup_file fs p = false) ∧
    (∀ fs p, fsLookup fs p = some [] → verify_backup_file fs p = false) ∧
    (∀ fs p bs, fsLookup fs p = some bs → bs.take 3 ≠ [31, 139, 8] →
      verify_backup_file fs p = false) ∧
    (∀ p payload, payload.length ≤ 65535 →
      verify_backup_file [(p, gzipCompressStored payload)] p = true) ∧
    (verify_backup_file [("backup.sql.gz", gzipCompressStored [])]
      "backup.sql.gz" = true) ∧
    (∀ env, env.gateResult = Except.ok true → env.dumpExit = 0 →
      env.compressRaises = false →
      verify_backup_file (backupCompressFS env) env.backupPath = false →
      fsLookup (backup env).fs env.backupPath = some env.compressedBytes ∧
      (backup env).outcome = Except.ok false) := by
  refine ⟨?_, ?_, ?_, ?_, ?_, ?_⟩
  · intro fs p h
    simp [verify_backup_file, h]
  · intro fs p h
    simp [verify_backup_file, h]
  · intro fs p bs h hh
    by_cases hl : bs.length = 0
    · simp [verify_backup_file, h, hl]
    · cases hdec : gzipDecode bs with
      | none => simp [verify_backup_file, h, hl, hdec]
      | some l => exact absurd (gzipDecode_header bs l hdec) hh
  · intro p payload hlen
    simp [verify_backup_file, fsLookup, gzipCompressStored_length_pos payload,
      gzipDecode_compress payload hlen]
  · decide
  · intro env hg hd hc hv
    have hfs : (backup env).fs = backupCompressFS env := by
      simp [backup, hg, hd, hc, hv]
    refine ⟨?_, ?_⟩
    · rw [hfs]; exact (backupCompressFS_lookup env).1
    · simp [backup, hg, hd, hc, hv]

/-- C5: the restore fails without invoking the executor when the artifact
does not exist; when it exists and decompresses, the decompressed bytes
are the executor's standard input, the command carries ON_ERROR_STOP=1,
and the restore reports success iff the executor exits zero; any nonzero
executor exit is a failure. -/
theorem C5_restore_flow :
    (∀ env, env.gateResult = Except.ok true → env.artifact = none →
      restore env = { outcome := Except.ok false, executorCmd := none,
                      executorInput := none }) ∧
    (∀ env bs sql, env.gateResult = Except.ok true → env.artifact = some bs →
      gzipDecode bs = some sql →
      (restore env).executorInput = some sql ∧
      (restore env).executorCmd = some (restore_cmd env) ∧
      "ON_ERROR_STOP=1" ∈ restore_cmd env ∧
      ((restore env).outcome = Except.ok true ↔ env.psqlExit = 0)) ∧
    (∀ env bs, env.gateResult = Except.ok true → env.artifact = some bs →
      gzipDecode bs = none →
      restore env = { outcome := Except.ok false, executorCmd := none,
                      executorInput := none }) ∧
    (∀ env, (restore env).outcome = Except.ok true → env.psqlExit = 0) := by
  refine ⟨?_, ?_, ?_, ?_⟩
  · intro env h1 h2
    simp [restore, h1, h2]
  · intro env bs sql h1 h2 h3
    refine ⟨by simp [restore, h1, h2, h3], by simp [restore, h1, h2, h3], ?_, ?_⟩
    · exact List.mem_append_left _ (List.mem_append_left _ (by simp))
    · simp [restore, h1, h2, h3]
  · intro env bs h1 h2 h3
    simp [restore, h1, h2, h3]
  · intro env h
    cases hg : env.gateResult with
    | error e => simp [restore, hg] at h
    | ok b =>
      cases b with
      | false => simp [restore, hg] at h
      | true =>
        cases ha : env.artifact with
        | none => simp [restore, hg, ha] at h
        | some bs =>
          cases hdec : gzipDecode bs with
          | none => simp [restore, hg, ha, hdec] at h
          | some sql =>
            simp [restore, hg, ha, hdec] at h
            exact h

/-- C6: in every export or import batch an individual item's failure (a
failed copy, a missing source file, or a failed requested truncate, which
skips that file's load) marks that item failed while every other item is
still processed, and the aggregate result is failure iff at least one item
failed. -/
theorem C6_batch_independence :
    (∀ items, (export_to_csv_items items).2 =
      items.map (fun p => export_item p.1 p.2)) ∧
    (∀ items, (export_to_csv_items items).1 = true ↔
      ∀ r ∈ (export_to_csv_items items).2, r.ok = true) ∧
    (∀ tr items, (import_from_csv_items tr items).2 =
      items.map (fun p => import_item p.1 tr p.2)) ∧
    (∀ tr items, (import_from_csv_items tr items).1 = true ↔
      ∀ r ∈ (import_from_csv_items tr items).2, r.ok = true) ∧
    (∀ t e, (pySplit t '.').length = 2 → e ≠ 0 →
      export_item t e = { ok := false, copyInvoked := true }) ∧
    (∀ f tr te ie,
      import_item f tr
          { fileExists := false, truncateExit := te, importExit := ie } =
        { ok := false, truncateInvoked := false, loadInvoked := false }) ∧
    (∀ f te ie, (pySplit (pyStem f) '.').length = 2 → te ≠ 0 →
      import_item f true
          { fileExists := true, truncateExit := te, importExit := ie } =
        { ok := false, truncateInvoked := true, loadInvoked := false }) := by
  refine ⟨export_items_results, export_items_agg, import_items_results,
    import_items_agg, ?_, ?_, ?_⟩
  · intro t e h he
    rw [export_item_good_split t e h]
    simp [he]
  · intro f tr te ie
    simp [import_item]
  · intro f te ie h hte
    obtain ⟨a, b, hs⟩ := List.length_eq_two.mp h
    simp [import_item, hs, hte]

/-- C7 counterexample: the table spec with an empty second part splits
into exactly two parts, one empty, and the export item with it does not
fail fast: the copy command is still issued and with exit code zero the
item even counts as succeeded, contradicting the claim that an empty part
makes the item fail fast. -/
theorem C7_counterexample_empty_part :
    pySplit "a." '.' = ["a", ""] ∧
    export_item "a." 0 = { ok := true, copyInvoked := true } := by
  exact ⟨by decide, by decide⟩

/-- C7 as amended: the structural check is that splitting on the dot
yields exactly two parts, empty parts included; a wrong part count (no
dot, or extra dots) makes that single item fail fast, without issuing any
command, as a per-item failure while the batch continues; parts are not
checked for emptiness, so a name with an empty part passes the check and
the command is still issued. -/
theorem C7_amended_two_parts :
    (∀ t e, (pySplit t '.').length ≠ 2 →
      export_item t e = { ok := false, copyInvoked := false }) ∧
    (∀ t e, (pySplit t '.').length = 2 →
      export_item t e = { ok := decide (e = 0), copyInvoked := true }) ∧
    (∀ f tr e, e.fileExists = true → (pySplit (pyStem f) '.').length ≠ 2 →
      import_item f tr e =
        { ok := false, truncateInvoked := false, loadInvoked := false }) ∧
    (∀ e, e.fileExists = true →
      import_item "usersdata.csv" false e =
        { ok := false, truncateInvoked := false, loadInvoked := false }) ∧
    (∀ t e rest, (pySplit t '.').length ≠ 2 →
      (export_to_csv_items ((t, e) :: rest)).1 = false ∧
      (export_to_csv_items ((t, e) :: rest)).2 =
        { ok := false, copyInvoked := false } ::
          (export_to_csv_items rest).2) := by
  refine ⟨export_item_bad_split, export_item_good_split,
    import_item_bad_split, ?_, ?_⟩
  · intro e he
    exact import_item_bad_split _ _ _ he (by decide)
  · intro t e rest h
    rcases hrest : export_to_csv_items rest with ⟨agg, rs⟩
    constructor
    · simp [export_to_csv_items, hrest, export_item_bad_split t e h]
    · simp [export_to_csv_items, hrest, export_item_bad_split t e h]

/-- C9: a failed table enumeration (nonzero exit of the catalog query, or
a raised exception) returns the empty list, the same value a database
with no user tables yields, so the two are indistinguishable at the
interface. -/
theorem C9_enumeration_failure_indistinguishable :
    (∀ ex out, ex ≠ 0 → get_all_tables false ex out = []) ∧
    (∀ ex out, get_all_tables true ex out = []) ∧
    (∀ ex out, ex ≠ 0 →
      get_all_tables false ex out = get_all_tables false 0 "") ∧
    (get_all_tables false 0 "" = []) := by
  refine ⟨?_, ?_, ?_, ?_⟩
  · intro ex out h
    simp [get_all_tables, h]
  · intro ex out
    simp [get_all_tables]
  · intro ex out h
    have h1 : get_all_tables false ex out = [] := by simp [get_all_tables, h]
    have h2 : get_all_tables false 0 "" = [] := by decide
    rw [h1, h2]
  · decide

/-- C10: an explicit non-empty csv_files list alone determines the import
batch and the input directory is never scanned; the directory is
consulted only when the explicit list is absent or empty. -/
theorem C10_explicit_list_precedence :
    (∀ l dir de g, l ≠ [] →
      import_from_csv_select (some l) dir de g = (Except.ok l, false)) ∧
    (∀ cf dir de g, (import_from_csv_select cf dir de g).2 = true →
      falsyStrList cf = true) ∧
    (∀ cf dir de g, falsyStrList cf = true → falsyStr dir = false →
      de = true → (import_from_csv_select cf dir de g).2 = true) := by
  refine ⟨?_, ?_, ?_⟩
  · intro l dir de g h
    cases l with
    | nil => exact absurd rfl h
    | cons a as => simp [import_from_csv_select, falsyStrList]
  · intro cf dir de g h
    cases cf with
    | none => rfl
    | some l =>
      cases l with
      | nil => rfl
      | cons a as => simp [import_from_csv_select, falsyStrList] at h
  · intro cf dir de g h1 h2 h3
    subst h3
    rw [import_from_csv_select.eq_def]
    rw [if_neg (by simp [h1, h2]), if_pos (by simp [h1]), if_neg (by simp)]
    by_cases hge : g.isEmpty <;> simp [hge]

/-- C8: the generated backup filename has the exact form
prefix_YYYYMMDD_HHMMSS.sql.gz (a four-digit year, two digits for each
other field, an underscore between date and time) and embeds the supplied
local timestamp at one-second granularity, so two generations at distinct
second-granularity timestamps yield distinct names. -/
theorem C8_backup_filename :
    (∀ t, ValidDateTime t →
      get_backup_filename "backup" t
        = "backup_" ++ strftime_timestamp t ++ ".sql.gz" ∧
      (strftime_timestamp t).data
        = (padChars 4 t.year ++ padChars 2 t.month ++ padChars 2 t.day)
          ++ ('_' :: (padChars 2 t.hour ++ padChars 2 t.minute
            ++ padChars 2 t.second)) ∧
      (padChars 4 t.year ++ padChars 2 t.month ++ padChars 2 t.day).length = 8 ∧
      (padChars 2 t.hour ++ padChars 2 t.minute
        ++ padChars 2 t.second).length = 6 ∧
      (∀ c ∈ padChars 4 t.year ++ padChars 2 t.month ++ padChars 2 t.day,
        c.isDigit = true) ∧
      (∀ c ∈ padChars 2 t.hour ++ padChars 2 t.minute ++ padChars 2 t.second,
        c.isDigit = true)) ∧
    (∀ t1 t2, ValidDateTime t1 → ValidDateTime t2 → t1 ≠ t2 →
      get_backup_filename "backup" t1 ≠ get_backup_filename "backup" t2) := by
  constructor
  · intro t hv
    obtain ⟨hy, hmo, hd, hh, hmi, hs⟩ := hv
    refine ⟨rfl, rfl, ?_, ?_, ?_, ?_⟩
    · simp [List.length_append, padChars4_length _ hy,
        padChars2_length _ hmo, padChars2_length _ hd]
    · simp [List.length_append, padChars2_length _ hh,
        padChars2_length _ hmi, padChars2_length _ hs]
    · intro c hc
      rcases List.mem_append.mp hc with h | h
      · rcases List.mem_append.mp h with h | h
        · exact padChars_isDigit _ _ _ h
        · exact padChars_isDigit _ _ _ h
      · exact padChars_isDigit _ _ _ h
    · intro c hc
      rcases List.mem_append.mp hc with h | h
      · rcases List.mem_append.mp h with h | h
        · exact padChars_isDigit _ _ _ h
        · exact padChars_isDigit _ _ _ h
      · exact padChars_isDigit _ _ _ h
  · intro t1 t2 h1 h2 hne heq
    apply hne
    apply strftime_timestamp_inj t1 t2 h1 h2
    have hd := congrArg String.data heq
    rw [get_backup_filename, get_backup_filename] at hd
    simp only [String.data_append] at hd
    have h15 : (strftime_timestamp t1).data.length
        = (strftime_timestamp t2).data.length := by
      rw [strftime_data_length t1 h1, strftime_data_length t2 h2]
    obtain ⟨hL, _⟩ := List.append_inj hd (by simp [List.length_append, h15])
    exact List.append_cancel_left hL
